import Mathlib

/-!
Verification of the `tasksync` library (`TaskSynchronizer` in
`src/tasksync/tasksync.hpp` and the flexible invocation dispatcher in
`src/tasksync/trycall.hpp`).

Two embeddings are used:

* `Tasksync.SyncState` — a sequential state model of one `TaskSynchronizer`
  together with the heap of `Status` objects it allocates.  Shared-pointer
  ownership is modelled by an explicit strong-reference count per status id;
  a `weak_ptr` is just the captured id, and `lock` succeeds exactly when the
  strong count of that id is positive.  Wrapper invocation
  (`invokeWrapper`) mirrors the lambda body of `TaskSynchronizer::synchronized`
  line by line, including the two different cleanup orders of the normal and
  the exception exit path, and records the bookkeeping events it performs.

* `Tasksync.Sys` — a small interleaved transition system for the join
  protocol: one joiner thread executing `wait_all_running_tasks` and any
  number of wrapper invocations, each a thread stepping through the lambda
  body.  The joiner's wait predicate is modelled as it is evaluated in the
  source — two separate reads of the counter and of the status's
  reference count, with only the decrement protected by the mutex.
  Counter properties are proved as invariants of the reachable states, and
  the race in which `join_tasks` returns while the counter is still
  positive is exhibited as a concrete reachable trace.

The dispatcher `try_call` is modelled by `Trycall.FlexCallable`: C++ overload
resolution over the three `detail::try_call` overloads (exact arguments,
zero arguments, catch-all) becomes a record of the two optional call shapes.
-/

namespace Trycall

/-- A callable as seen by the overload set of `detail::try_call`:
`exactArgs` is present iff `callable(args...)` is well-formed
(the `priority<2>` overload applies), `zeroArgs` is present iff
`callable()` is well-formed (the `priority<1>` overload applies).
If neither is present only the `otherwise` overload applies. -/
structure FlexCallable (α ρ : Type) where
  exactArgs : Option (α → ρ)
  zeroArgs : Option (Unit → ρ)

/-- Embedding of `try_call( callable, args... )` (trycall.hpp lines 80-84
dispatching to the `detail::try_call` overloads, lines 16-32): the
`priority<2>` overload (exact arguments) is tried first, then the
`priority<1>` overload (zero arguments), then the `otherwise` overload which
performs no call.  The result records which call, if any, was made. -/
def try_call {α ρ : Type} (callable : FlexCallable α ρ) (args : α) : Option ρ :=
  match callable.exactArgs with
  | some f => some (f args)
  | none =>
    match callable.zeroArgs with
    | some g => some (g ())
    | none => none

end Trycall

namespace Tasksync

/-- Pointwise update of a `Nat`-indexed map, used for the status heap. -/
def upd {α : Type} (f : Nat → α) (i : Nat) (v : α) : Nat → α :=
  fun j => if j = i then v else f j

/-- State of one `TaskSynchronizer` together with the heap of `Status`
objects it has allocated.  `m_status` is the coordinator's owning
`shared_ptr` (the id it points to, or `none` once released);
`join_requested` gives each status object's flag and `strong` its
strong-reference count (`0` means the object has been destroyed, so a
`weak_ptr::lock` on it fails).  `nextId` is the allocator: ids `≥ nextId`
have never been allocated. -/
structure SyncState where
  m_name : String
  m_running_tasks : Int
  m_status : Option Nat
  nextId : Nat
  join_requested : Nat → Bool
  strong : Nat → Nat

/-- Construction (tasksync.hpp lines 45-48 with the member initializer at
line 172): the coordinator starts with a freshly allocated `Status`
(id `0`, flag `false`, strong count `1` held by `m_status`). -/
def initSync (name : String) : SyncState :=
  { m_name := name
    m_running_tasks := 0
    m_status := some 0
    nextId := 1
    join_requested := fun _ => false
    strong := fun i => if i = 0 then 1 else 0 }

/-- Embedding of `notify_begin_execution` (line 177-180): increment `m_running_tasks`. -/
def notify_begin_execution (s : SyncState) : SyncState :=
  { s with m_running_tasks := s.m_running_tasks + 1 }

/-- Embedding of `notify_end_execution` (line 182-187): decrement `m_running_tasks`
(and signal the condition variable, which has no effect on the state). -/
def notify_end_execution (s : SyncState) : SyncState :=
  { s with m_running_tasks := s.m_running_tasks - 1 }

/-- Embedding of `make_remote_status` (line 189-192): `std::weak_ptr<Status>{ m_status }`.
A weak pointer is just the observed id; constructing it from a null
`shared_ptr` gives an always-expired weak pointer (`none`). -/
def make_remote_status (s : SyncState) : Option Nat :=
  s.m_status

/-- Dropping one strong reference to status `id` (a `shared_ptr` being
reset or destroyed). -/
def releaseHold (s : SyncState) (id : Nat) : SyncState :=
  { s with strong := upd s.strong id (s.strong id - 1) }

/-- Embedding of `weak_ptr::lock()` on the captured observer link: succeeds, adding a
transient strong hold, exactly when the status object is still alive
(strong count positive). -/
def lock (s : SyncState) (sid : Option Nat) : Option (SyncState × Nat) :=
  match sid with
  | none => none
  | some id =>
    if 0 < s.strong id then
      some ({ s with strong := upd s.strong id (s.strong id + 1) }, id)
    else
      none

/-- Embedding of `wait_all_running_tasks` (lines 194-211): return immediately if
`m_status` is already null; otherwise set the status's `join_requested`
flag, release the coordinator's own strong reference, and wait until
`m_running_tasks == 0 && remote_status.expired()`.  In the sequential
model no other thread runs, so the wait itself changes no state; the wait
predicate holding at return is proved as a theorem, not assumed. -/
def wait_all_running_tasks (s : SyncState) : SyncState :=
  match s.m_status with
  | none => s
  | some id =>
    { s with
      join_requested := upd s.join_requested id true
      strong := upd s.strong id (s.strong id - 1)
      m_status := none }

/-- Embedding of `join_tasks` (lines 132-138): logging aside, it is
`wait_all_running_tasks` followed by the `is_joined()` assertion. -/
def join_tasks (s : SyncState) : SyncState :=
  wait_all_running_tasks s

/-- Embedding of `reset` (lines 146-151): `join_tasks()` then
`m_status = std::make_shared<Status>()` — a brand-new status object with a
fresh id, flag `false`, strong count `1`. -/
def reset (s : SyncState) : SyncState :=
  let s1 := join_tasks s
  { s1 with
    m_status := some s1.nextId
    nextId := s1.nextId + 1
    join_requested := upd s1.join_requested s1.nextId false
    strong := upd s1.strong s1.nextId 1 }

/-- Embedding of `is_joined` (line 157): `!m_status && m_running_tasks == 0`. -/
def is_joined (s : SyncState) : Bool :=
  s.m_status.isNone && s.m_running_tasks == 0

/-- Embedding of `running_tasks` (line 160). -/
def running_tasks (s : SyncState) : Int :=
  s.m_running_tasks

/-- Embedding of `name` (line 154). -/
def name (s : SyncState) : String :=
  s.m_name

/-- The callable returned by `synchronized` (lines 91-103): it captures the
wrapped work and a `weak_ptr` observer link to the coordinator's current
status.  The work itself is opaque to the coordinator; only its outcome
(normal return or a thrown exception) matters to the bookkeeping, so it is
modelled by that outcome. -/
structure Wrapper (E : Type) where
  remote_status : Option Nat
  work : Except E Unit

/-- Embedding of `synchronized` (lines 88-104): build the wrapper, capturing
`make_remote_status()`.  The coordinator's state is untouched; there is no
assertion or throw in the source body, even when already joined. -/
def synchronized {E : Type} (s : SyncState) (work : Except E Unit) :
    SyncState × Wrapper E :=
  (s, { remote_status := make_remote_status s, work := work })

/-- Bookkeeping events performed by one wrapper invocation, in order. -/
inductive Ev where
  | lockFail
  | lockOk
  | beginExec
  | callWork
  | endExec
  | releaseHold
deriving DecidableEq

/-- One invocation of the wrapper lambda (lines 93-103), with the event
trace it performs.  `status = remote_status.lock()`; if it fails or
`join_requested` is set, no call happens (the transient hold, if taken, is
dropped when `status` is destroyed at scope end).  Otherwise
`notify_begin_execution()`, then the work runs under
`BOOST_SCOPE_EXIT_ALL { notify_end_execution(); }`:

* normal return: `status.reset()` drops the hold, then the scope-exit
  block decrements;
* exception: unwinding runs the scope-exit block (decrement) first, then
  `status`'s destructor drops the hold, and the exception propagates. -/
def invokeWrapper {E : Type} (s : SyncState) (w : Wrapper E) :
    SyncState × List Ev × Except E Unit :=
  match lock s w.remote_status with
  | none => (s, [Ev.lockFail], Except.ok ())
  | some (s1, id) =>
    if s1.join_requested id then
      (releaseHold s1 id, [Ev.lockOk, Ev.releaseHold], Except.ok ())
    else
      let s2 := notify_begin_execution s1
      match w.work with
      | Except.ok _ =>
        let s3 := releaseHold s2 id
        (notify_end_execution s3,
          [Ev.lockOk, Ev.beginExec, Ev.callWork, Ev.releaseHold, Ev.endExec],
          Except.ok ())
      | Except.error e =>
        let s3 := notify_end_execution s2
        (releaseHold s3 id,
          [Ev.lockOk, Ev.beginExec, Ev.callWork, Ev.endExec, Ev.releaseHold],
          Except.error e)

/-! ### Interleaved transition system for the join protocol

One coordinator lifetime with its single `Status` object, any number of
wrapper-invocation threads (each running the lambda of lines 93-103 once),
and one joiner thread running `wait_all_running_tasks` (lines 194-211).
Each thread's progress is a program counter; shared state is the in-flight
counter, the status flag, and who strongly holds the status. -/

/-- Program counter of one wrapper invocation through the lambda body:
`start` (before `remote_status.lock()`), `locked` (lock succeeded, holds a
transient strong hold, about to read `join_requested`), `passed` (flag was
false, about to `notify_begin_execution`), `working` (counter incremented,
work running), `releasedNormal` (work returned, `status.reset()` done,
scope-exit decrement still pending), `decremented` (work threw, scope-exit
decrement done, `status` destructor still pending), `releasing` (flag was
true, skip branch, hold still to be dropped at scope end), `done`. -/
inductive TaskPC where
  | start
  | locked
  | passed
  | working
  | releasedNormal
  | decremented
  | releasing
  | done
deriving DecidableEq

/-- Does a wrapper invocation at this pc hold a transient strong hold on
the status? -/
def TaskPC.holdsStatus : TaskPC → Bool
  | .locked => true
  | .passed => true
  | .working => true
  | .releasedNormal => false
  | .decremented => true
  | .releasing => true
  | _ => false

/-- Has this invocation incremented `m_running_tasks` without yet having
decremented it? -/
def TaskPC.counted : TaskPC → Bool
  | .working => true
  | .releasedNormal => true
  | _ => false

/-- Program counter of the joiner thread through `wait_all_running_tasks`.
The wait predicate (lines 205-208) is `m_running_tasks == 0 &&
remote_status.expired()` — two separate reads, evaluated left to right
under `m_mutex`: `waiting` is before the first read (blocked in the
condition variable or about to evaluate), `readCount` is between the two
reads (`m_running_tasks == 0` was just observed, the mutex is held), and
`returned` is after the second read observed the status expired. -/
inductive JoinPC where
  | notCalled
  | waiting
  | readCount
  | returned
deriving DecidableEq

/-- Global state of the interleaved system: the in-flight counter, whether
the coordinator's `m_status` strong reference is still held, the status's
`join_requested` flag, the pc of every wrapper invocation, and the joiner's
pc. -/
structure Sys where
  running : Int
  ownerHolds : Bool
  joinReq : Bool
  tasks : List TaskPC
  joiner : JoinPC
deriving DecidableEq

/-- Number of wrapper invocations holding a transient strong hold. -/
def holdCount (ts : List TaskPC) : Nat :=
  ts.countP (·.holdsStatus)

/-- Total strong-reference count of the status object: the coordinator's
owning reference plus every transient hold. -/
def strongCount (s : Sys) : Nat :=
  (if s.ownerHolds then 1 else 0) + holdCount s.tasks

/-- One interleaving step.  Task steps rewrite one invocation's pc inside
the task list; joiner steps follow `wait_all_running_tasks`.  Guards mirror
the source: `lock` succeeds iff some strong reference exists; the wait
predicate (lines 205-208) is evaluated as two separate reads
(`joinReadCount` then `joinReadExpired` / `joinReadNotExpired`), because
`m_running_tasks` and the status's reference count are read one after the
other.  Only `notify_end_execution` (lines 182-187) takes `m_mutex`, which
the joiner holds while it is between the two reads: the decrement steps
`endNormal` and `throwDec` are therefore blocked while the joiner is at
`readCount`.  The increment (`notify_begin_execution`, line 179) and the
hold release (`status.reset()`, line 101) take no lock and may interleave
anywhere — including between the joiner's two reads. -/
inductive Step : Sys → Sys → Prop
  | lockFail (s : Sys) (l r : List TaskPC) :
      s.tasks = l ++ TaskPC.start :: r → strongCount s = 0 →
      Step s { s with tasks := l ++ TaskPC.done :: r }
  | lockOk (s : Sys) (l r : List TaskPC) :
      s.tasks = l ++ TaskPC.start :: r → 0 < strongCount s →
      Step s { s with tasks := l ++ TaskPC.locked :: r }
  | checkSkip (s : Sys) (l r : List TaskPC) :
      s.tasks = l ++ TaskPC.locked :: r → s.joinReq = true →
      Step s { s with tasks := l ++ TaskPC.releasing :: r }
  | checkPass (s : Sys) (l r : List TaskPC) :
      s.tasks = l ++ TaskPC.locked :: r → s.joinReq = false →
      Step s { s with tasks := l ++ TaskPC.passed :: r }
  | beginExec (s : Sys) (l r : List TaskPC) :
      s.tasks = l ++ TaskPC.passed :: r →
      Step s { s with tasks := l ++ TaskPC.working :: r,
                      running := s.running + 1 }
  | finishNormal (s : Sys) (l r : List TaskPC) :
      s.tasks = l ++ TaskPC.working :: r →
      Step s { s with tasks := l ++ TaskPC.releasedNormal :: r }
  | endNormal (s : Sys) (l r : List TaskPC) :
      s.tasks = l ++ TaskPC.releasedNormal :: r →
      s.joiner ≠ JoinPC.readCount →
      Step s { s with tasks := l ++ TaskPC.done :: r,
                      running := s.running - 1 }
  | throwDec (s : Sys) (l r : List TaskPC) :
      s.tasks = l ++ TaskPC.working :: r →
      s.joiner ≠ JoinPC.readCount →
      Step s { s with tasks := l ++ TaskPC.decremented :: r,
                      running := s.running - 1 }
  | throwRelease (s : Sys) (l r : List TaskPC) :
      s.tasks = l ++ TaskPC.decremented :: r →
      Step s { s with tasks := l ++ TaskPC.done :: r }
  | skipRelease (s : Sys) (l r : List TaskPC) :
      s.tasks = l ++ TaskPC.releasing :: r →
      Step s { s with tasks := l ++ TaskPC.done :: r }
  | joinCall (s : Sys) :
      s.joiner = JoinPC.notCalled → s.ownerHolds = true →
      Step s { s with joiner := JoinPC.waiting, joinReq := true,
                      ownerHolds := false }
  | joinEarly (s : Sys) :
      s.joiner = JoinPC.notCalled → s.ownerHolds = false →
      Step s { s with joiner := JoinPC.returned }
  | joinReadCount (s : Sys) :
      s.joiner = JoinPC.waiting → s.running = 0 →
      Step s { s with joiner := JoinPC.readCount }
  | joinReadExpired (s : Sys) :
      s.joiner = JoinPC.readCount → strongCount s = 0 →
      Step s { s with joiner := JoinPC.returned }
  | joinReadNotExpired (s : Sys) :
      s.joiner = JoinPC.readCount → 0 < strongCount s →
      Step s { s with joiner := JoinPC.waiting }

/-- Initial state: fresh coordinator owning the status, flag clear,
`n` wrapper invocations about to run, join not yet called. -/
def initSys (n : Nat) : Sys :=
  { running := 0
    ownerHolds := true
    joinReq := false
    tasks := List.replicate n TaskPC.start
    joiner := JoinPC.notCalled }

/-- Reachability from the initial state with `n` invocations. -/
def Reachable (n : Nat) (s : Sys) : Prop :=
  Relation.ReflTransGen Step (initSys n) s

/-- The raced state: the joiner has returned, but the single wrapper
invocation — whose work already ran and whose strong hold is already
dropped — has not yet decremented the counter, so `m_running_tasks` is
still `1`. -/
def racedSys : Sys :=
  { running := 1
    ownerHolds := false
    joinReq := true
    tasks := [TaskPC.releasedNormal]
    joiner := JoinPC.returned }

/-- A joined coordinator: the result of `join_tasks` on a fresh one. -/
def joinedSync : SyncState :=
  join_tasks (initSync "ts")

/-- Number of invocations that have incremented the counter without yet
having decremented it. -/
def countedCount (ts : List TaskPC) : Nat :=
  ts.countP (·.counted)

/-- Inductive invariant of the join protocol: the in-flight counter equals
the number of invocations between their increment and their decrement; the
coordinator still owns the status until the joiner runs; once the joiner
has started, ownership is released and the flag is set. -/
def Inv (s : Sys) : Prop :=
  s.running = (countedCount s.tasks : Int)
  ∧ (s.joiner = JoinPC.notCalled → s.ownerHolds = true)
  ∧ (s.joiner ≠ JoinPC.notCalled → s.ownerHolds = false ∧ s.joinReq = true)

/-- One public operation on the coordinator, as used by a sequential
client: wrap new work, invoke some wrapper, join, or reset. -/
inductive Op (E : Type) where
  | wrap
  | invoke (w : Wrapper E)
  | join
  | reset

/-- Effect of one operation on the coordinator state. -/
def applyOp {E : Type} (s : SyncState) : Op E → SyncState
  | Op.wrap => (synchronized s (Except.ok () : Except E Unit)).1
  | Op.invoke w => (invokeWrapper s w).1
  | Op.join => join_tasks s
  | Op.reset => reset s

/-- Effect of a sequence of operations. -/
def applyOps {E : Type} (s : SyncState) (ops : List (Op E)) : SyncState :=
  ops.foldl applyOp s

/-- A destroyed status object stays destroyed: its strong count can never
rise again, because a fresh strong reference can only come from `lock`
(which needs a positive count) or from allocation (which uses a fresh id). -/
def DeadStatus (s : SyncState) (id : Nat) : Prop :=
  id < s.nextId ∧ s.strong id = 0

theorem upd_upd_self {α : Type} (f : Nat → α) (i : Nat) (a : α) :
    upd (upd f i a) i (f i) = f := by
  funext j
  by_cases hj : j = i <;> simp [upd, hj]

theorem upd_incr_decr (f : Nat → Nat) (i : Nat) :
    upd (upd f i (f i + 1)) i (upd f i (f i + 1) i - 1) = f := by
  have h : upd f i (f i + 1) i = f i + 1 := by simp [upd]
  rw [h, Nat.add_sub_cancel, upd_upd_self]

end Tasksync

namespace Trycall

/-- C6: the flexible invocation dispatcher `try_call(callable, args...)`
invokes the callable with exactly `args...` when that signature is accepted
(preferring it even when the zero-argument form is also accepted);
otherwise, when the callable accepts zero arguments, invokes it with none;
otherwise performs no call and raises no error. -/
theorem try_call_dispatch_priority {α ρ : Type} (c : FlexCallable α ρ)
    (args : α) :
    (∀ f, c.exactArgs = some f → try_call c args = some (f args))
    ∧ (c.exactArgs = none →
        ∀ g, c.zeroArgs = some g → try_call c args = some (g ()))
    ∧ (c.exactArgs = none → c.zeroArgs = none → try_call c args = none) := by
  refine ⟨?_, ?_, ?_⟩ <;> intros <;> simp [try_call, *]

/-- Witness for C6: a callable accepting both arities is invoked with the
exact arguments (the zero-argument fallback is not preferred). -/
theorem try_call_dispatch_priority_witness :
    try_call ⟨some (fun n : Nat => n + 1), some (fun _ => 0)⟩ 3 = some 4 :=
  (try_call_dispatch_priority ⟨some (fun n : Nat => n + 1), some (fun _ => 0)⟩
    3).1 (fun n => n + 1) rfl

/-- C10: when the object passed to `try_call` is not callable at all — it
accepts neither the supplied arguments nor zero arguments — the catch-all
lowest-priority overload applies: no call is performed and no error is
raised. -/
theorem try_call_noncallable_silent {α ρ : Type} (c : FlexCallable α ρ)
    (args : α) (h1 : c.exactArgs = none) (h2 : c.zeroArgs = none) :
    try_call c args = none := by
  simp [try_call, h1, h2]

/-- Witness for C10: a concrete non-callable object yields no call. -/
theorem try_call_noncallable_silent_witness :
    try_call (⟨none, none⟩ : FlexCallable Nat Nat) 0 = none :=
  try_call_noncallable_silent ⟨none, none⟩ 0 rfl rfl

end Trycall

namespace Tasksync

/-- C4: `is_joined()` is false immediately after construction and
immediately after `reset()` returns, true immediately after `join_tasks()`
returns, and remains true across repeated `join_tasks()` calls: a second
`join_tasks()` returns immediately without changing any state. -/
theorem is_joined_lifecycle (nm : String) (s : SyncState)
    (h : running_tasks s = 0) :
    is_joined (initSync nm) = false
    ∧ is_joined (reset s) = false
    ∧ is_joined (join_tasks s) = true
    ∧ join_tasks (join_tasks s) = join_tasks s := by
  refine ⟨rfl, ?_, ?_, ?_⟩
  · cases hs : s.m_status <;>
      simp [reset, join_tasks, wait_all_running_tasks, is_joined, hs]
  · cases hs : s.m_status <;>
      simp [join_tasks, wait_all_running_tasks, is_joined, hs, running_tasks] at h ⊢ <;>
      simp [h]
  · cases hs : s.m_status <;>
      simp [join_tasks, wait_all_running_tasks, hs]

/-- Witness for C4 at a freshly constructed coordinator. -/
theorem is_joined_lifecycle_witness :
    is_joined (initSync "w") = false
    ∧ is_joined (reset (initSync "w4")) = false
    ∧ is_joined (join_tasks (initSync "w4")) = true
    ∧ join_tasks (join_tasks (initSync "w4")) = join_tasks (initSync "w4") :=
  is_joined_lifecycle "w" (initSync "w4") rfl

/-- C9: the wrap operation `synchronized` changes no coordinator state:
`running_tasks`, `is_joined`, `name`, the owned status and every status's
`join_requested` flag are exactly what they were before the call, and the
produced wrapper observes the current status. -/
theorem synchronized_no_side_effects {E : Type} (s : SyncState)
    (work : Except E Unit) :
    (synchronized s work).1 = s
    ∧ running_tasks (synchronized s work).1 = running_tasks s
    ∧ is_joined (synchronized s work).1 = is_joined s
    ∧ name (synchronized s work).1 = name s
    ∧ (synchronized s work).1.m_status = s.m_status
    ∧ (∀ id, (synchronized s work).1.join_requested id = s.join_requested id)
    ∧ (synchronized s work).2.remote_status = s.m_status :=
  ⟨rfl, rfl, rfl, rfl, rfl, fun _ => rfl, rfl⟩

/-- Counterexample for C3: on a joined, non-reset coordinator,
`synchronized` succeeds silently — it returns normally with the state
unchanged and hands back a permanently inert wrapper; no assertion or
exception path exists in the source body (lines 88-104). -/
theorem synchronized_after_join_succeeds_silently :
    is_joined joinedSync = true
    ∧ synchronized joinedSync (Except.ok () : Except Unit Unit)
        = (joinedSync, { remote_status := none, work := Except.ok () })
    ∧ (invokeWrapper joinedSync
        (synchronized joinedSync (Except.ok () : Except Unit Unit)).2).1
      = joinedSync :=
  ⟨rfl, rfl, rfl⟩

/-- C3 (amended): calling `synchronized` on a joined, non-reset coordinator
succeeds silently, with no state change and no failure; the wrapper it
returns captures an already-expired observer link and is permanently
inert — invoking it in any state performs no call and is a no-op. -/
theorem synchronized_after_join_inert {E : Type} (s : SyncState)
    (h : is_joined s = true) (work : Except E Unit) :
    (synchronized s work).1 = s
    ∧ (synchronized s work).2.remote_status = none
    ∧ ∀ t, invokeWrapper t (synchronized s work).2
        = (t, [Ev.lockFail], Except.ok ()) := by
  have hs : s.m_status = none := by
    simp [is_joined, Bool.and_eq_true, Option.isNone_iff_eq_none] at h
    exact h.1
  refine ⟨rfl, ?_, ?_⟩
  · simp [synchronized, make_remote_status, hs]
  · intro t
    simp [invokeWrapper, synchronized, make_remote_status, hs, lock]

/-- Witness for C3's amended theorem at a concretely joined coordinator. -/
theorem synchronized_after_join_inert_witness :
    (synchronized joinedSync (Except.ok () : Except Unit Unit)).1 = joinedSync
    ∧ (synchronized joinedSync
        (Except.ok () : Except Unit Unit)).2.remote_status = none
    ∧ ∀ t, invokeWrapper t
          (synchronized joinedSync (Except.ok () : Except Unit Unit)).2
        = (t, [Ev.lockFail], Except.ok ()) :=
  synchronized_after_join_inert joinedSync rfl (Except.ok ())

/-- C5: a wrapper invocation whose observer link fails to resolve (the
status object is destroyed, or the link was captured from a null
`m_status`) or resolves to a status whose `join_requested` flag is set
performs no call and returns immediately and normally: the state is
unchanged and the outcome is a plain successful no-op. -/
theorem skip_is_silent_noop {E : Type} (s : SyncState) (w : Wrapper E)
    (h : ∀ id, w.remote_status = some id →
      s.strong id = 0 ∨ s.join_requested id = true) :
    (invokeWrapper s w).1 = s
    ∧ (invokeWrapper s w).2.2 = Except.ok ()
    ∧ (invokeWrapper s w).2.1.count Ev.callWork = 0 := by
  cases hsid : w.remote_status with
  | none => simp [invokeWrapper, lock, hsid]
  | some id =>
    rcases h id hsid with h0 | hflag
    · simp [invokeWrapper, lock, hsid, h0]
    · by_cases halive : 0 < s.strong id
      · have hrel : releaseHold { s with
            strong := upd s.strong id (s.strong id + 1) } id = s := by
          simp [releaseHold, upd_incr_decr]
        simp [invokeWrapper, lock, hsid, halive, hflag, hrel]
      · simp [invokeWrapper, lock, hsid, halive]

/-- Witness for C5: invoking a wrapper created after the join (expired
observer link) is a silent no-op. -/
theorem skip_is_silent_noop_witness :
    (invokeWrapper joinedSync
        (⟨none, Except.error "boom"⟩ : Wrapper String)).1 = joinedSync
    ∧ (invokeWrapper joinedSync
        (⟨none, Except.error "boom"⟩ : Wrapper String)).2.2 = Except.ok ()
    ∧ (invokeWrapper joinedSync
        (⟨none, Except.error "boom"⟩ : Wrapper String)).2.1.count
          Ev.callWork = 0 :=
  skip_is_silent_noop joinedSync ⟨none, Except.error "boom"⟩
    (fun _ h => by cases h)

/-- C2: a wrapper invocation passing the run decision (link resolved,
`join_requested` false) increments the in-flight count before the work
runs, and on both exit paths — normal return and propagating exception —
releases the transient strong hold and decrements the count exactly once
before control leaves the invocation; the work's exception propagates to
the caller unmodified, and the counter and every strong count are restored
to their pre-invocation values. -/
theorem invokeWrapper_cleanup_exactly_once {E : Type} (s : SyncState)
    (w : Wrapper E) (id : Nat) (hsid : w.remote_status = some id)
    (halive : 0 < s.strong id) (hflag : s.join_requested id = false) :
    (∃ pre post,
      (invokeWrapper s w).2.1 = pre ++ Ev.callWork :: post
      ∧ pre.count Ev.beginExec = 1
      ∧ pre.count Ev.endExec = 0
      ∧ pre.count Ev.releaseHold = 0
      ∧ post.count Ev.endExec = 1
      ∧ post.count Ev.releaseHold = 1)
    ∧ (invokeWrapper s w).2.2 = w.work
    ∧ (invokeWrapper s w).1.m_running_tasks = s.m_running_tasks
    ∧ (∀ j, (invokeWrapper s w).1.strong j = s.strong j) := by
  cases hw : w.work with
  | ok u =>
    refine ⟨⟨[Ev.lockOk, Ev.beginExec], [Ev.releaseHold, Ev.endExec],
      ?_, by decide, by decide, by decide, by decide, by decide⟩, ?_, ?_, ?_⟩ <;>
      simp [invokeWrapper, lock, hsid, halive, hflag, hw, releaseHold,
        notify_begin_execution, notify_end_execution, upd_incr_decr]
  | error e =>
    refine ⟨⟨[Ev.lockOk, Ev.beginExec], [Ev.endExec, Ev.releaseHold],
      ?_, by decide, by decide, by decide, by decide, by decide⟩, ?_, ?_, ?_⟩ <;>
      simp [invokeWrapper, lock, hsid, halive, hflag, hw, releaseHold,
        notify_begin_execution, notify_end_execution, upd_incr_decr]

/-! ### Invariants of the interleaved join protocol -/

theorem holdCount_append_cons (l r : List TaskPC) (p : TaskPC) :
    holdCount (l ++ p :: r)
      = holdCount l + holdCount r + (if p.holdsStatus then 1 else 0) := by
  cases hp : p.holdsStatus <;>
    simp [holdCount, List.countP_append, List.countP_cons, hp] <;> omega

theorem countedCount_append_cons (l r : List TaskPC) (p : TaskPC) :
    countedCount (l ++ p :: r)
      = countedCount l + countedCount r + (if p.counted then 1 else 0) := by
  cases hp : p.counted <;>
    simp [countedCount, List.countP_append, List.countP_cons, hp] <;> omega

theorem countedCount_replicate_start (n : Nat) :
    countedCount (List.replicate n TaskPC.start) = 0 := by
  induction n with
  | zero => rfl
  | succ k ih =>
    simpa [List.replicate, countedCount, List.countP_cons, TaskPC.counted]
      using ih

theorem inv_init (n : Nat) : Inv (initSys n) := by
  refine ⟨?_, fun _ => rfl, fun h => absurd rfl h⟩
  simp [initSys, countedCount_replicate_start]

theorem inv_step {s s' : Sys} (hs : Inv s) (h : Step s s') : Inv s' := by
  obtain ⟨ha, hb, hc⟩ := hs
  cases h with
  | lockFail l r ht hg =>
    rw [ht] at ha
    exact ⟨by simpa [countedCount_append_cons, TaskPC.counted] using ha, hb, hc⟩
  | lockOk l r ht hg =>
    rw [ht] at ha
    exact ⟨by simpa [countedCount_append_cons, TaskPC.counted] using ha, hb, hc⟩
  | checkSkip l r ht hf =>
    rw [ht] at ha
    exact ⟨by simpa [countedCount_append_cons, TaskPC.counted] using ha, hb, hc⟩
  | checkPass l r ht hf =>
    rw [ht] at ha
    exact ⟨by simpa [countedCount_append_cons, TaskPC.counted] using ha, hb, hc⟩
  | beginExec l r ht =>
    rw [ht] at ha
    refine ⟨?_, hb, hc⟩
    rw [countedCount_append_cons] at ha ⊢
    simp [TaskPC.counted] at ha ⊢
    omega
  | finishNormal l r ht =>
    rw [ht] at ha
    refine ⟨?_, hb, hc⟩
    rw [countedCount_append_cons] at ha ⊢
    simp [TaskPC.counted] at ha ⊢
    omega
  | endNormal l r ht hm =>
    rw [ht] at ha
    refine ⟨?_, hb, hc⟩
    rw [countedCount_append_cons] at ha ⊢
    simp [TaskPC.counted] at ha ⊢
    omega
  | throwDec l r ht hm =>
    rw [ht] at ha
    refine ⟨?_, hb, hc⟩
    rw [countedCount_append_cons] at ha ⊢
    simp [TaskPC.counted] at ha ⊢
    omega
  | throwRelease l r ht =>
    rw [ht] at ha
    exact ⟨by simpa [countedCount_append_cons, TaskPC.counted] using ha, hb, hc⟩
  | skipRelease l r ht =>
    rw [ht] at ha
    exact ⟨by simpa [countedCount_append_cons, TaskPC.counted] using ha, hb, hc⟩
  | joinCall hj ho =>
    refine ⟨ha, ?_, fun _ => ⟨rfl, rfl⟩⟩
    intro h
    cases h
  | joinEarly hj ho =>
    have := hb hj
    rw [this] at ho
    cases ho
  | joinReadCount hj hr =>
    refine ⟨ha, ?_, fun _ => hc (by simp [hj])⟩
    intro h
    cases h
  | joinReadExpired hj hstrong =>
    refine ⟨ha, ?_, fun _ => hc (by simp [hj])⟩
    intro h
    cases h
  | joinReadNotExpired hj hstrong =>
    refine ⟨ha, ?_, fun _ => hc (by simp [hj])⟩
    intro h
    cases h

/-- Every reachable state of the interleaved join protocol satisfies the
invariant. -/
theorem inv_reachable {n : Nat} {s : Sys} (h : Reachable n s) : Inv s := by
  induction h with
  | refl => exact inv_init n
  | tail _ hstep ih => exact inv_step ih hstep

/-- C1: refuted — `join_tasks` can return while the in-flight counter is
still positive.  The wait predicate (lines 205-208) is two separate reads
and `notify_begin_execution` (line 179) takes no mutex, so between the
joiner's read of `m_running_tasks == 0` and its read of
`remote_status.expired()` a wrapper that had already passed the
`join_requested` check can increment the counter, run its work, and drop
its strong hold via `status.reset()` (line 101).  The joiner then observes
the status expired and returns with `m_running_tasks == 1`, the finished
wrapper's decrement still pending — the state `racedSys`, reached here by
exactly that interleaving (every step of which is also possible in the
source: the increment and the release are lock-free, and the joiner holds
`m_mutex` only against the decrement). -/
theorem join_returns_with_positive_counter :
    Reachable 1 racedSys
    ∧ racedSys.joiner = JoinPC.returned
    ∧ 0 < racedSys.running
    ∧ racedSys.tasks = [TaskPC.releasedNormal] :=
  ⟨Relation.ReflTransGen.head
      (Step.lockOk (initSys 1) [] [] rfl (by decide))
      (Relation.ReflTransGen.head
        (Step.checkPass ⟨0, true, false, [TaskPC.locked], JoinPC.notCalled⟩
          [] [] rfl rfl)
        (Relation.ReflTransGen.head
          (Step.joinCall ⟨0, true, false, [TaskPC.passed], JoinPC.notCalled⟩
            rfl rfl)
          (Relation.ReflTransGen.head
            (Step.joinReadCount
              ⟨0, false, true, [TaskPC.passed], JoinPC.waiting⟩ rfl rfl)
            (Relation.ReflTransGen.head
              (Step.beginExec
                ⟨0, false, true, [TaskPC.passed], JoinPC.readCount⟩ [] [] rfl)
              (Relation.ReflTransGen.head
                (Step.finishNormal
                  ⟨1, false, true, [TaskPC.working], JoinPC.readCount⟩
                  [] [] rfl)
                (Relation.ReflTransGen.single
                  (Step.joinReadExpired
                    ⟨1, false, true, [TaskPC.releasedNormal],
                      JoinPC.readCount⟩ rfl (by decide)))))))),
    rfl, by decide, rfl⟩

/-- C8: the in-flight count is never negative — in every reachable state
of the interleaved system, including states mid-invocation and mid-join,
the counter equals the number of invocations between their increment and
their matching decrement, hence is at least `0`. -/
theorem running_tasks_nonneg {n : Nat} {s : Sys} (h : Reachable n s) :
    0 ≤ s.running ∧ s.running = (countedCount s.tasks : Int) := by
  have ha := (inv_reachable h).1
  exact ⟨by rw [ha]; exact_mod_cast Nat.zero_le _, ha⟩

/-- Witness for C8: a reachable state with one execution in flight has a
nonnegative counter equal to the one in-flight invocation. -/
theorem running_tasks_nonneg_witness :
    0 ≤ (⟨1, true, false, [TaskPC.working], JoinPC.notCalled⟩ : Sys).running
    ∧ (⟨1, true, false, [TaskPC.working], JoinPC.notCalled⟩ : Sys).running
      = (countedCount
          (⟨1, true, false, [TaskPC.working],
            JoinPC.notCalled⟩ : Sys).tasks : Int) :=
  running_tasks_nonneg (n := 1)
    (Relation.ReflTransGen.head
      (Step.lockOk (initSys 1) [] [] rfl (by decide))
      (Relation.ReflTransGen.head
        (Step.checkPass ⟨0, true, false, [TaskPC.locked], JoinPC.notCalled⟩
          [] [] rfl rfl)
        (Relation.ReflTransGen.single
          (Step.beginExec ⟨0, true, false, [TaskPC.passed], JoinPC.notCalled⟩
            [] [] rfl))))

/-! ### Sequences of coordinator operations -/

theorem invokeWrapper_strong_other {E : Type} (s : SyncState) (w : Wrapper E)
    (id : Nat) (h : s.strong id = 0) :
    (invokeWrapper s w).1.strong id = 0
    ∧ (invokeWrapper s w).1.nextId = s.nextId := by
  cases hsid : w.remote_status with
  | none => simp [invokeWrapper, lock, hsid, h]
  | some j =>
    by_cases hj : 0 < s.strong j
    · have hne : id ≠ j := by
        intro he
        rw [he] at h
        omega
      by_cases hf : s.join_requested j
      · simp [invokeWrapper, lock, hsid, hj, hf, releaseHold, upd, hne, h]
      · cases hw : w.work with
        | ok u =>
          simp [invokeWrapper, lock, hsid, hj, hf, hw, releaseHold,
            notify_begin_execution, notify_end_execution, upd, hne, h]
        | error e =>
          simp [invokeWrapper, lock, hsid, hj, hf, hw, releaseHold,
            notify_begin_execution, notify_end_execution, upd, hne, h]
    · simp [invokeWrapper, lock, hsid, hj, h]

theorem dead_join_tasks (s : SyncState) (id : Nat)
    (h : DeadStatus s id) : DeadStatus (join_tasks s) id := by
  obtain ⟨hlt, h0⟩ := h
  cases hs : s.m_status with
  | none =>
    exact ⟨by simpa [join_tasks, wait_all_running_tasks, hs] using hlt,
      by simpa [join_tasks, wait_all_running_tasks, hs] using h0⟩
  | some j =>
    refine ⟨by simpa [join_tasks, wait_all_running_tasks, hs] using hlt, ?_⟩
    by_cases hij : id = j
    · subst hij
      simp [join_tasks, wait_all_running_tasks, hs, upd, h0]
    · simp [join_tasks, wait_all_running_tasks, hs, upd, hij, h0]

theorem dead_applyOp {E : Type} (s : SyncState) (o : Op E) (id : Nat)
    (h : DeadStatus s id) : DeadStatus (applyOp s o) id := by
  cases o with
  | wrap => exact h
  | invoke w =>
    obtain ⟨h1, h2⟩ := invokeWrapper_strong_other s w id h.2
    exact ⟨by rw [show (applyOp s (Op.invoke w)).nextId
      = (invokeWrapper s w).1.nextId from rfl, h2]; exact h.1, h1⟩
  | join => exact dead_join_tasks s id h
  | reset =>
    obtain ⟨hlt1, h01⟩ := dead_join_tasks s id h
    refine ⟨?_, ?_⟩
    · show id < (join_tasks s).nextId + 1
      omega
    · show upd (join_tasks s).strong (join_tasks s).nextId 1 id = 0
      have hne : id ≠ (join_tasks s).nextId := by omega
      simp [upd, hne, h01]

theorem dead_applyOps {E : Type} (s : SyncState) (ops : List (Op E))
    (id : Nat) (h : DeadStatus s id) : DeadStatus (applyOps s ops) id := by
  induction ops generalizing s with
  | nil => exact h
  | cons o rest ih => exact ih _ (dead_applyOp s o id h)

/-- C7: `reset` performs a full join and then installs a brand-new status:
afterwards `is_joined()` is false and new `synchronized` calls produce
wrappers tied to the new status.  A wrapper created before the reset keeps
observing the old, abandoned status: after `reset` and any further
sequence of coordinator operations, invoking such a wrapper finds its
observer link expired and is a no-op — the old status never becomes
reachable again. -/
theorem reset_fresh_status_and_stale_wrappers {E : Type} (s : SyncState)
    (oldId : Nat) (hold : s.m_status = some oldId)
    (hfresh : oldId < s.nextId) (hone : s.strong oldId = 1)
    (work work2 : Except E Unit) (ops : List (Op E)) :
    (reset s).m_status = some s.nextId
    ∧ is_joined (reset s) = false
    ∧ (synchronized (reset s) work).2.remote_status = some s.nextId
    ∧ oldId ≠ s.nextId
    ∧ invokeWrapper (applyOps (reset s) ops)
        (⟨some oldId, work2⟩ : Wrapper E)
      = (applyOps (reset s) ops, [Ev.lockFail], Except.ok ()) := by
  have hne : oldId ≠ s.nextId := by omega
  have hdead : DeadStatus (reset s) oldId := by
    constructor
    · show oldId < (join_tasks s).nextId + 1
      simp [join_tasks, wait_all_running_tasks, hold]
      omega
    · show upd (join_tasks s).strong (join_tasks s).nextId 1 oldId = 0
      simp [join_tasks, wait_all_running_tasks, hold, upd, hne, hone]
  have hdead2 := dead_applyOps (reset s) ops oldId hdead
  refine ⟨?_, ?_, ?_, hne, ?_⟩
  · simp [reset, join_tasks, wait_all_running_tasks, hold]
  · simp [is_joined, reset]
  · simp [synchronized, make_remote_status, reset, join_tasks,
      wait_all_running_tasks, hold]
  · simp [invokeWrapper, lock, hdead2.2]

/-- Witness for C7 at a fresh coordinator reset once, with a further join
applied after the reset: the pre-reset wrapper's link stays expired. -/
theorem reset_fresh_status_and_stale_wrappers_witness :
    (reset (initSync "w7")).m_status = some (initSync "w7").nextId
    ∧ is_joined (reset (initSync "w7")) = false
    ∧ (synchronized (reset (initSync "w7"))
        (Except.ok () : Except Unit Unit)).2.remote_status
      = some (initSync "w7").nextId
    ∧ (0 : Nat) ≠ (initSync "w7").nextId
    ∧ invokeWrapper (applyOps (reset (initSync "w7")) [(Op.join : Op Unit)])
        (⟨some 0, Except.ok ()⟩ : Wrapper Unit)
      = (applyOps (reset (initSync "w7")) [(Op.join : Op Unit)],
          [Ev.lockFail], Except.ok ()) :=
  reset_fresh_status_and_stale_wrappers (initSync "w7") 0 rfl (by decide)
    rfl (Except.ok ()) (Except.ok ()) [Op.join]

/-- Witness for C2 at a fresh coordinator invoking a throwing work. -/
theorem invokeWrapper_cleanup_exactly_once_witness :
    (∃ pre post,
      (invokeWrapper (initSync "x")
          (⟨some 0, Except.error "boom"⟩ : Wrapper String)).2.1
        = pre ++ Ev.callWork :: post
      ∧ pre.count Ev.beginExec = 1
      ∧ pre.count Ev.endExec = 0
      ∧ pre.count Ev.releaseHold = 0
      ∧ post.count Ev.endExec = 1
      ∧ post.count Ev.releaseHold = 1)
    ∧ (invokeWrapper (initSync "x")
        (⟨some 0, Except.error "boom"⟩ : Wrapper String)).2.2
      = (⟨some 0, Except.error "boom"⟩ : Wrapper String).work
    ∧ (invokeWrapper (initSync "x")
        (⟨some 0, Except.error "boom"⟩ : Wrapper String)).1.m_running_tasks
      = (initSync "x").m_running_tasks
    ∧ (∀ j, (invokeWrapper (initSync "x")
        (⟨some 0, Except.error "boom"⟩ : Wrapper String)).1.strong j
      = (initSync "x").strong j) :=
  invokeWrapper_cleanup_exactly_once (initSync "x")
    ⟨some 0, Except.error "boom"⟩ 0 rfl (by decide) rfl

end Tasksync
